import Mathlib

/-!
Verification of the blog-publishing admin application (lecture snapshots).

The data models come from `blog/models.py` (Lecture code 1), the admin
configuration from `blog/admin.py` of Lecture code 1 and Lecture code 2,
and the export resource from `blog/resources.py` (Lecture code 1).

Shallow embedding conventions:
* model rows are structures whose fields mirror the Django model fields;
  nullable fields (`null=True`) are `Option`;
* the relational store is a structure of row lists; foreign keys are ids;
* `date.today()` is passed explicitly as a `PyDate` argument;
* a Python exception (the `AttributeError` raised by `Author.age` when
  `birth_date` is `None`) is embedded as `none`;
* the framework behaviours the configuration delegates to (default
  changelist queryset, `Meta.ordering`, `on_delete=CASCADE`,
  `unique_together` validation, `ModelResource.export`) are embedded by
  their documented semantics, driven by the declarative configuration
  found in the source.
-/

namespace Blog

/-- Python `datetime.date`: a calendar date as the Python code uses it
(`.year`, `.month`, `.day`). -/
structure PyDate where
  year : Int
  month : Nat
  day : Nat
deriving DecidableEq, Repr

/-- Model `blog.models.Author`: `first_name`, `last_name`, `email`,
`birth_date` (`null=True`, hence `Option`). -/
structure Author where
  id : Nat
  first_name : String
  last_name : String
  email : String
  birth_date : Option PyDate
deriving DecidableEq, Repr

/-- Property `Author.full_name`: `f'{self.first_name} {self.last_name}'`. -/
def Author.full_name (a : Author) : String :=
  a.first_name ++ " " ++ a.last_name

/-- Python tuple comparison `(today.month, today.day) < (bd.month, bd.day)`:
lexicographic on (month, day). -/
def monthDayLt (m1 d1 m2 d2 : Nat) : Bool :=
  m1 < m2 || (m1 == m2 && d1 < d2)

/-- Property `Author.age`: `today.year - self.birth_date.year - ((today.month,
today.day) < (self.birth_date.month, self.birth_date.day))`.  The source
dereferences `self.birth_date` unconditionally; on a `None` birth date the
attribute access raises, embedded here as `none`. -/
def Author.age (a : Author) (today : PyDate) : Option Int :=
  match a.birth_date with
  | none => none
  | some bd =>
      some (today.year - bd.year - (if monthDayLt today.month today.day bd.month bd.day then 1 else 0))

/-- Model `blog.models.BlogPost`: authors (many-to-many, by id), `title`,
`text`, `active` (default `True`), `create_date` / `update_date`
(nullable timestamps), `website` (nullable), `document` (nullable file
path), `deleted` (default `False`), `order` (default 0). -/
structure BlogPost where
  id : Nat
  authors : List Nat
  title : String
  text : String
  active : Bool
  create_date : Option Nat
  update_date : Option Nat
  website : Option String
  document : Option String
  deleted : Bool
  order : Nat
deriving DecidableEq, Repr

/-- Model `blog.models.BannerImage`: `blog_post` is a `OneToOneField` with
`on_delete=CASCADE`; `image` is nullable. -/
structure BannerImage where
  id : Nat
  blog_post : Nat
  image : Option String
deriving DecidableEq, Repr

/-- Model `blog.models.BlogPostImage`: `blog_post` is a `ForeignKey` with
`on_delete=CASCADE`; `order` defaults to 0, `Meta.ordering = ['order']`. -/
structure BlogPostImage where
  id : Nat
  blog_post : Nat
  image : String
  order : Nat
deriving DecidableEq, Repr

/-- Model `blog.models.BlogPostImageDescription`: `blog_post_image` is a
`ForeignKey` with `on_delete=CASCADE`. -/
structure BlogPostImageDescription where
  id : Nat
  blog_post_image : Nat
  text : String
deriving DecidableEq, Repr

/-- The relational store holding all rows of the four dependent tables. -/
structure Store where
  posts : List BlogPost
  banners : List BannerImage
  images : List BlogPostImage
  descriptions : List BlogPostImageDescription
deriving DecidableEq, Repr

/-- The requesting admin user; only `is_superuser` is consulted by the
(commented-out) queryset filter of the source. -/
structure User where
  is_superuser : Bool
deriving DecidableEq, Repr

/-- Ordering `BlogPost.Meta.ordering = ['order']`: default listings sort ascending
by the `order` field (stable merge sort, as a deterministic refinement of
the SQL `ORDER BY "order"`). -/
def sortPostsByOrder (posts : List BlogPost) : List BlogPost :=
  posts.mergeSort (fun a b => a.order ≤ b.order)

/-- Ordering `BlogPostImage.Meta.ordering = ['order']`. -/
def sortImagesByOrder (imgs : List BlogPostImage) : List BlogPostImage :=
  imgs.mergeSort (fun a b => a.order ≤ b.order)

/-- The default (unparameterised) BlogPost listing: all rows, in
`Meta.ordering` order. -/
def defaultPostListing (posts : List BlogPost) : List BlogPost :=
  sortPostsByOrder posts

/-- The images of one post, as `BlogPost.get_images` /
`related_name='images'` returns them: filtered by `blog_post`, in
`Meta.ordering` order. -/
def imageListing (s : Store) (postId : Nat) : List BlogPostImage :=
  sortImagesByOrder (s.images.filter (fun im => im.blog_post == postId))

/-- The changelist queryset of the ACTIVE `BlogPostAdmin`
(`class BlogPostAdmin(ImportExportModelAdmin)` in Lecture code 1;
`class BlogPostAdmin(ImportExportModelAdmin, NestedModelAdmin)` in
Lecture code 2).  Neither class overrides `get_queryset`, so every user
receives the default queryset of all rows in `Meta.ordering` order; the
`user` argument is not consulted. -/
def BlogPostAdmin.get_queryset (_user : User) (posts : List BlogPost) : List BlogPost :=
  defaultPostListing posts

/-- The `get_queryset` of the COMMENTED-OUT
`BlogPostAdmin(SortableAdminMixin, NestedModelAdmin)` of Lecture code 1:
superusers get the full queryset, other users `qs.filter(active=True)`.
This class is not registered; kept for comparison with the active admin. -/
def commentedBlogPostAdmin.get_queryset (user : User) (posts : List BlogPost) : List BlogPost :=
  let qs := defaultPostListing posts
  if user.is_superuser then qs else qs.filter (fun p => p.active)

/-- A tablib-style dataset: header row plus data rows, as produced by
`resource.export(queryset)` and serialised by `dataset.export('xlsx')`. -/
structure Dataset where
  headers : List String
  rows : List (List String)
deriving DecidableEq, Repr

/-- The HTTP response assembled by the `export_selected` actions:
the serialised dataset, the content type, and the
`Content-Disposition` header. -/
structure HttpResponse where
  content : Dataset
  content_type : String
  content_disposition : String
deriving DecidableEq, Repr

/-- Columns `BlogPostResource.Meta.fields = ('id', 'title', 'text', 'create_date')`:
the fixed column projection of the export. -/
def BlogPostResource.headers : List String :=
  ["id", "title", "text", "create_date"]

/-- One exported data row of `BlogPostResource`: the declared fields of
the given post, rendered as cells (a null `create_date` exports as the
empty cell). -/
def BlogPostResource.row (p : BlogPost) : List String :=
  [toString p.id, p.title, p.text,
    match p.create_date with
    | none => ""
    | some t => toString t]

/-- Export `BlogPostResource().export(queryset)`: one data row per record of the
queryset, in queryset order, under the declared headers. -/
def BlogPostResource.export (queryset : List BlogPost) : Dataset :=
  { headers := BlogPostResource.headers
    rows := queryset.map BlogPostResource.row }

/-- Action `BlogPostAdmin.export_selected(self, request, queryset)`: exports the
given queryset through `BlogPostResource` and wraps it in an xlsx response
with `filename="books.xlsx"`. -/
def BlogPostAdmin.export_selected (queryset : List BlogPost) : HttpResponse :=
  { content := BlogPostResource.export queryset
    content_type := "application/vnd.openxmlformats-officedocument.spreadsheetml.sheet"
    content_disposition := "attachment; filename=books.xlsx" }

/-- Cascade `on_delete=models.CASCADE` delete of one BlogPost: the post row goes,
every `BannerImage` whose `blog_post` is the post goes
(`BannerImage.blog_post`), every `BlogPostImage` whose `blog_post` is the
post goes (`BlogPostImage.blog_post`), and every
`BlogPostImageDescription` whose `blog_post_image` is one of those deleted
images goes (`BlogPostImageDescription.blog_post_image`). -/
def deleteBlogPost (s : Store) (postId : Nat) : Store :=
  let goneImageIds := (s.images.filter (fun im => im.blog_post == postId)).map (fun im => im.id)
  { posts := s.posts.filter (fun p => p.id != postId)
    banners := s.banners.filter (fun b => b.blog_post != postId)
    images := s.images.filter (fun im => im.blog_post != postId)
    descriptions := s.descriptions.filter (fun d => !(goneImageIds.contains d.blog_post_image)) }

/-- Constraint `BlogPost.Meta.unique_together = [['title', 'text']]`: a candidate row
duplicates an existing one when both `title` and `text` coincide. -/
def duplicatePair (posts : List BlogPost) (np : BlogPost) : Bool :=
  posts.any (fun p => p.title == np.title && p.text == np.text)

/-- Saving a new BlogPost: `unique_together` validation rejects a
candidate whose (title, text) pair equals an existing row's, leaving the
table unchanged; otherwise the row is appended. -/
def savePost (posts : List BlogPost) (np : BlogPost) : Except String (List BlogPost) :=
  if duplicatePair posts np then
    .error "Blog Post with this title and text already exists."
  else
    .ok (posts ++ [np])

/-- A sequence of save attempts; a failed validation leaves the table as
it was. -/
def saveAll (posts : List BlogPost) (news : List BlogPost) : List BlogPost :=
  news.foldl
    (fun acc np =>
      match savePost acc np with
      | .ok acc2 => acc2
      | .error _ => acc)
    posts

/-- No two rows of the table share the same (title, text) pair. -/
def uniquePairs (posts : List BlogPost) : Prop :=
  List.Pairwise (fun p q => ¬(p.title = q.title ∧ p.text = q.text)) posts

/-- Write one row of a reorder submission: look the image's id up in the
submitted (id, order) pairs and persist the submitted order value on the
row's `order` field, the only field the reorder touches. -/
def applyOrder1 (sub : List (Nat × Nat)) (im : BlogPostImage) : BlogPostImage :=
  match sub.find? (fun e => e.1 == im.id) with
  | some e => { im with order := e.2 }
  | none => im

/-- Persist a reorder submission over a post's image rows: for each image
id, the submitted order value is written to the `order` field. -/
def applyOrders (imgs : List BlogPostImage) (sub : List (Nat × Nat)) :
    List BlogPostImage :=
  imgs.map (applyOrder1 sub)

/-- Modelled from the spec: `AuthorResource` is imported by Lecture code
2's `blog/admin.py` from `blog/resources.py`, but that snapshot's
`resources.py` is not among the sources; the spec fixes the column
projection of the author export to the authors' name and age fields. -/
def AuthorResource.headers : List String :=
  ["full_name", "age"]

/-- Modelled from the spec: one exported data row of `AuthorResource`,
projecting the author's name and age fields (a null birth date leaves the
age cell empty). -/
def AuthorResource.row (a : Author) (today : PyDate) : List String :=
  [a.full_name,
    match a.age today with
    | none => ""
    | some n => toString n]

/-- Modelled from the spec: `AuthorResource().export(queryset)`, one data
row per selected author under the name/age headers. -/
def AuthorResource.export (queryset : List Author) (today : PyDate) : Dataset :=
  { headers := AuthorResource.headers
    rows := queryset.map (fun a => AuthorResource.row a today) }

/-- Action `AuthorAdmin.export_selected(self, request, queryset)` (Lecture code
2): exports the given queryset through `AuthorResource` and wraps it in an
xlsx response with `filename="books.xlsx"`. -/
def AuthorAdmin.export_selected (queryset : List Author) (today : PyDate) : HttpResponse :=
  { content := AuthorResource.export queryset today
    content_type := "application/vnd.openxmlformats-officedocument.spreadsheetml.sheet"
    content_disposition := "attachment; filename=books.xlsx" }

/-- The claim's wording for the derived age: the number of whole years
elapsed from the birth date to the current date, one less than the year
difference when the current month/day precedes the birthday. -/
def wholeYearsElapsed (bd today : PyDate) : Int :=
  if today.month < bd.month ∨ (today.month = bd.month ∧ today.day < bd.day) then
    today.year - bd.year - 1
  else
    today.year - bd.year

/-- A sample inactive, non-deleted post (all other fields defaulted). -/
def inactivePost : BlogPost :=
  { id := 1, authors := [], title := "a", text := "b", active := false,
    create_date := none, update_date := none, website := none,
    document := none, deleted := false, order := 0 }

/-- A sample active but soft-deleted post. -/
def softDeletedPost : BlogPost :=
  { id := 2, authors := [], title := "c", text := "d", active := true,
    create_date := none, update_date := none, website := none,
    document := none, deleted := true, order := 0 }

/-- A sample author with a known birth date. -/
def sampleAuthor : Author :=
  { id := 1, first_name := "Ada", last_name := "L", email := "a@b.c",
    birth_date := some { year := 1990, month := 6, day := 15 } }

/-- A sample store: post 1 with a banner, an image and a description of
that image; post 2 with its own banner. -/
def sampleStore : Store :=
  { posts := [inactivePost,
      { id := 2, authors := [], title := "c", text := "d", active := true,
        create_date := none, update_date := none, website := none,
        document := none, deleted := false, order := 1 }]
    banners := [{ id := 1, blog_post := 1, image := none },
      { id := 2, blog_post := 2, image := none }]
    images := [{ id := 10, blog_post := 1, image := "i.png", order := 0 }]
    descriptions := [{ id := 100, blog_post_image := 10, text := "caption" }] }

/-- A candidate post sharing (title, text) with `inactivePost` but
differing elsewhere. -/
def dupCandidate : BlogPost :=
  { id := 9, authors := [], title := "a", text := "b", active := true,
    create_date := none, update_date := none, website := none,
    document := none, deleted := false, order := 5 }

/-- Sample images of post 1 for the reorder witness. -/
def img10 : BlogPostImage :=
  { id := 10, blog_post := 1, image := "a.png", order := 0 }

/-- Second sample image of post 1. -/
def img11 : BlogPostImage :=
  { id := 11, blog_post := 1, image := "b.png", order := 1 }

namespace Lemmas

theorem sortPosts_perm (posts : List BlogPost) :
    (sortPostsByOrder posts).Perm posts :=
  List.mergeSort_perm posts _

theorem sortPosts_sorted (posts : List BlogPost) :
    List.Sorted (fun a b : BlogPost => a.order ≤ b.order) (sortPostsByOrder posts) := by
  have h := @List.sorted_mergeSort BlogPost
    (fun a b : BlogPost => decide (a.order ≤ b.order))
    (fun a b c hab hbc => by
      simp only [decide_eq_true_eq] at *
      exact le_trans hab hbc)
    (fun a b => by
      simp only [Bool.or_eq_true, decide_eq_true_eq]
      exact le_total a.order b.order)
    posts
  simpa only [List.Sorted, decide_eq_true_eq] using h

theorem sortImages_perm (imgs : List BlogPostImage) :
    (sortImagesByOrder imgs).Perm imgs :=
  List.mergeSort_perm imgs _

theorem sortImages_sorted (imgs : List BlogPostImage) :
    List.Sorted (fun a b : BlogPostImage => a.order ≤ b.order) (sortImagesByOrder imgs) := by
  have h := @List.sorted_mergeSort BlogPostImage
    (fun a b : BlogPostImage => decide (a.order ≤ b.order))
    (fun a b c hab hbc => by
      simp only [decide_eq_true_eq] at *
      exact le_trans hab hbc)
    (fun a b => by
      simp only [Bool.or_eq_true, decide_eq_true_eq]
      exact le_total a.order b.order)
    imgs
  simpa only [List.Sorted, decide_eq_true_eq] using h

end Lemmas

/-- C2: exporting a selection of N posts yields a spreadsheet with exactly
N data rows, columns id, title, text, create_date in that order, and the
data rows are exactly the projections of the selected records, in
selection order — never rows from outside the selection. -/
theorem export_selected_matches_selection (queryset : List BlogPost) :
    (BlogPostAdmin.export_selected queryset).content.rows.length = queryset.length ∧
    (BlogPostAdmin.export_selected queryset).content.headers
      = ["id", "title", "text", "create_date"] ∧
    (BlogPostAdmin.export_selected queryset).content.rows
      = queryset.map BlogPostResource.row := by
  refine ⟨?_, rfl, rfl⟩
  simp [BlogPostAdmin.export_selected, BlogPostResource.export]

/-- C6: the default BlogPost listing returns all rows sorted ascending by
`order`, and the image listing of any post returns exactly that post's
images sorted ascending by `order`. -/
theorem default_listing_sorted_by_order (posts : List BlogPost) (s : Store) (postId : Nat) :
    (defaultPostListing posts).Perm posts ∧
    List.Sorted (fun a b : BlogPost => a.order ≤ b.order) (defaultPostListing posts) ∧
    (imageListing s postId).Perm
      (s.images.filter (fun im => im.blog_post == postId)) ∧
    List.Sorted (fun a b : BlogPostImage => a.order ≤ b.order) (imageListing s postId) :=
  ⟨Lemmas.sortPosts_perm posts, Lemmas.sortPosts_sorted posts,
    Lemmas.sortImages_perm _, Lemmas.sortImages_sorted _⟩

/-- C8: invoking the export action on the empty selection produces a
well-formed spreadsheet with zero data rows and the header columns still
present, rather than an error. -/
theorem export_selected_empty_selection :
    (BlogPostAdmin.export_selected []).content.rows = [] ∧
    (BlogPostAdmin.export_selected []).content.headers
      = ["id", "title", "text", "create_date"] ∧
    (BlogPostAdmin.export_selected []).content_type
      = "application/vnd.openxmlformats-officedocument.spreadsheetml.sheet" :=
  ⟨rfl, rfl, rfl⟩

/-- C9: for every selected subset of Author records, the export action
produces a downloadable xlsx response whose column projection is the
authors' name and age fields, one data row per selected author. -/
theorem author_export_projects_name_age (queryset : List Author) (today : PyDate) :
    (AuthorAdmin.export_selected queryset today).content.headers = ["full_name", "age"] ∧
    (AuthorAdmin.export_selected queryset today).content.rows
      = queryset.map (fun a => AuthorResource.row a today) ∧
    (AuthorAdmin.export_selected queryset today).content_type
      = "application/vnd.openxmlformats-officedocument.spreadsheetml.sheet" :=
  ⟨rfl, rfl, rfl⟩

/-- C10: reading `age` on an author with a null `birth_date` dereferences
the null and raises (embedded as `none`); under the precondition that
`birth_date` is non-null, `age` equals the number of whole years elapsed
from the birth date to the current date (one less than the year difference
when the current month/day precedes the birthday). -/
theorem age_requires_birth_date (a : Author) (today : PyDate) :
    (a.birth_date = none → a.age today = none) ∧
    (∀ bd, a.birth_date = some bd → a.age today = some (wholeYearsElapsed bd today)) := by
  constructor
  · intro h
    simp [Author.age, h]
  · intro bd h
    simp only [Author.age, h]
    have hiff : monthDayLt today.month today.day bd.month bd.day = true
        ↔ (today.month < bd.month ∨ (today.month = bd.month ∧ today.day < bd.day)) := by
      simp [monthDayLt]
    rw [wholeYearsElapsed]
    by_cases hc : today.month < bd.month ∨ (today.month = bd.month ∧ today.day < bd.day)
    · rw [if_pos hc, if_pos (hiff.mpr hc)]
    · rw [if_neg hc, if_neg (fun hb => hc (hiff.mp hb)), sub_zero]

/-- Witness for C10 at a concrete author and date: the author born
1990-06-15 has, on 2026-10-12, age 36 whole years. -/
theorem age_requires_birth_date_witness :
    sampleAuthor.age { year := 2026, month := 10, day := 12 }
      = some (wholeYearsElapsed { year := 1990, month := 6, day := 15 }
          { year := 2026, month := 10, day := 12 }) ∧
    sampleAuthor.age { year := 2026, month := 10, day := 12 } = some 36 :=
  ⟨(age_requires_birth_date sampleAuthor { year := 2026, month := 10, day := 12 }).2
      { year := 1990, month := 6, day := 15 } rfl,
    by decide⟩

/-- C1 counterexample: the registered BlogPostAdmin applies no visibility
filter — a non-superuser's listing queryset contains a post with
`active = false`, refuting the claim that non-superusers only see active
posts. -/
theorem listing_not_filtered_for_non_superuser :
    inactivePost ∈ BlogPostAdmin.get_queryset { is_superuser := false } [inactivePost] ∧
    inactivePost.active = false := by
  constructor
  · simp [BlogPostAdmin.get_queryset, defaultPostListing, sortPostsByOrder]
  · rfl

/-- C1 amended: the registered BlogPostAdmin does not override
`get_queryset`, so the listing queryset is identical for every user —
superuser or not — and contains all posts regardless of the `active` and
`deleted` flags; only the commented-out admin variant restricts
non-superusers to active posts. -/
theorem listing_same_for_all_users (u v : User) (posts : List BlogPost) :
    BlogPostAdmin.get_queryset u posts = BlogPostAdmin.get_queryset v posts ∧
    (BlogPostAdmin.get_queryset u posts).Perm posts :=
  ⟨rfl, Lemmas.sortPosts_perm posts⟩

/-- C7 counterexample: a soft-deleted post (`deleted = true`) appears in
the non-superuser listing queryset, refuting the claim that soft-deleted
posts are filtered out of non-privileged views. -/
theorem softdeleted_visible_to_non_superuser :
    softDeletedPost ∈ BlogPostAdmin.get_queryset { is_superuser := false } [softDeletedPost] ∧
    softDeletedPost.deleted = true := by
  constructor
  · simp [BlogPostAdmin.get_queryset, defaultPostListing, sortPostsByOrder]
  · rfl

/-- C7 amended: no listing filters on the `deleted` flag — every
soft-deleted post in the table appears in the listing queryset for every
user, and even the commented-out filtering admin variant keeps an active
soft-deleted post for non-superusers (it restricts only on `active`). -/
theorem softdeleted_not_filtered (u : User) (posts : List BlogPost) (p : BlogPost)
    (hmem : p ∈ posts) (_hdel : p.deleted = true) :
    p ∈ BlogPostAdmin.get_queryset u posts ∧
    (p.active = true → p ∈ commentedBlogPostAdmin.get_queryset u posts) := by
  have hq : p ∈ BlogPostAdmin.get_queryset u posts :=
    ((Lemmas.sortPosts_perm posts).mem_iff).mpr hmem
  refine ⟨hq, fun hact => ?_⟩
  unfold commentedBlogPostAdmin.get_queryset
  by_cases hsu : u.is_superuser
  · simpa [hsu] using hq
  · simp only [hsu, if_neg]
    simp only [Bool.false_eq_true, if_false, List.mem_filter]
    exact ⟨hq, hact⟩

/-- Witness for the amended C7 at a concrete store: the soft-deleted,
active sample post is in the non-superuser listing of both admins. -/
theorem softdeleted_not_filtered_witness :
    softDeletedPost ∈ BlogPostAdmin.get_queryset { is_superuser := false } [softDeletedPost] ∧
    (softDeletedPost.active = true →
      softDeletedPost ∈
        commentedBlogPostAdmin.get_queryset { is_superuser := false } [softDeletedPost]) :=
  softdeleted_not_filtered { is_superuser := false } [softDeletedPost] softDeletedPost
    (by decide) (by decide)

/-- C3: deleting a BlogPost removes its row, every BannerImage attached to
it, every BlogPostImage attached to it, and every
BlogPostImageDescription attached to one of those images; rows not
belonging to the deleted post survive. -/
theorem delete_cascades (s : Store) (postId : Nat) :
    (∀ p ∈ (deleteBlogPost s postId).posts, p.id ≠ postId) ∧
    (∀ b ∈ (deleteBlogPost s postId).banners, b.blog_post ≠ postId) ∧
    (∀ im ∈ (deleteBlogPost s postId).images, im.blog_post ≠ postId) ∧
    (∀ d ∈ (deleteBlogPost s postId).descriptions,
      ∀ im ∈ s.images, im.blog_post = postId → d.blog_post_image ≠ im.id) ∧
    (∀ b ∈ s.banners, b.blog_post ≠ postId → b ∈ (deleteBlogPost s postId).banners) ∧
    (∀ im ∈ s.images, im.blog_post ≠ postId → im ∈ (deleteBlogPost s postId).images) := by
  refine ⟨?_, ?_, ?_, ?_, ?_, ?_⟩
  · intro p hp
    have := (List.mem_filter.mp hp).2
    simpa using this
  · intro b hb
    have := (List.mem_filter.mp hb).2
    simpa using this
  · intro im him
    have := (List.mem_filter.mp him).2
    simpa using this
  · intro d hd im him heq
    have h2 := (List.mem_filter.mp hd).2
    simp only [Bool.not_eq_eq_eq_not, Bool.not_true] at h2
    have h3 : d.blog_post_image ∉
        (s.images.filter (fun im => im.blog_post == postId)).map (fun im => im.id) := by
      simpa using h2
    intro hid
    exact h3 (List.mem_map.mpr
      ⟨im, List.mem_filter.mpr ⟨him, by simpa using heq⟩, hid.symm⟩)
  · intro b hb hne
    exact List.mem_filter.mpr ⟨hb, by simpa using hne⟩
  · intro im him hne
    exact List.mem_filter.mpr ⟨him, by simpa using hne⟩

/-- Witness for C3 at the sample store: deleting post 1 keeps post 2's
banner and leaves no row of post 1's dependent tree behind. -/
theorem delete_cascades_witness :
    ({ id := 2, blog_post := 2, image := none } : BannerImage)
      ∈ (deleteBlogPost sampleStore 1).banners :=
  (delete_cascades sampleStore 1).2.2.2.2.1
    { id := 2, blog_post := 2, image := none } (by decide) (by decide)

/-- A save step preserves the unique (title, text) invariant: a rejected
duplicate leaves the table unchanged, and an accepted row duplicates no
existing pair. -/
theorem saveStep_preserves_uniquePairs (posts : List BlogPost) (np : BlogPost)
    (h : uniquePairs posts) :
    uniquePairs (match savePost posts np with
      | .ok l => l
      | .error _ => posts) := by
  cases hdup : duplicatePair posts np
  · simp only [savePost, hdup, Bool.false_eq_true, if_false]
    rw [uniquePairs, List.pairwise_append]
    refine ⟨h, List.pairwise_singleton _ _, ?_⟩
    intro p hp q hq
    simp only [List.mem_singleton] at hq
    subst hq
    simp only [duplicatePair, List.any_eq_false, Bool.and_eq_true, beq_iff_eq,
      not_and] at hdup
    intro hpair
    exact hdup p hp hpair.1 hpair.2
  · simp only [savePost, hdup, if_true]
    exact h

/-- C4: saving a BlogPost whose (title, text) pair equals an existing
row's fails validation with an error and adds no record, and any sequence
of save attempts starting from a table with pairwise-distinct
(title, text) pairs preserves that invariant: no two rows ever share the
pair. -/
theorem duplicate_pair_rejected (posts news : List BlogPost) (np : BlogPost) :
    ((∃ p ∈ posts, p.title = np.title ∧ p.text = np.text) →
      savePost posts np
        = Except.error "Blog Post with this title and text already exists.") ∧
    (uniquePairs posts → uniquePairs (saveAll posts news)) := by
  constructor
  · rintro ⟨p, hp, ht, hx⟩
    have hdup : duplicatePair posts np = true := by
      simp only [duplicatePair, List.any_eq_true, Bool.and_eq_true, beq_iff_eq]
      exact ⟨p, hp, ht, hx⟩
    simp [savePost, hdup]
  · induction news generalizing posts with
    | nil =>
        intro h
        simpa [saveAll] using h
    | cons a t ih =>
        intro h
        exact ih _ (saveStep_preserves_uniquePairs posts a h)

/-- Witness for C4 at a concrete table: saving a candidate that repeats
the (title, text) pair of the one existing row errors, and the invariant
survives the attempt. -/
theorem duplicate_pair_rejected_witness :
    savePost [inactivePost] dupCandidate
      = Except.error "Blog Post with this title and text already exists." ∧
    uniquePairs (saveAll [inactivePost] [dupCandidate]) :=
  ⟨(duplicate_pair_rejected [inactivePost] [dupCandidate] dupCandidate).1
      ⟨inactivePost, by decide, by decide, by decide⟩,
    (duplicate_pair_rejected [inactivePost] [dupCandidate] dupCandidate).2
      (List.pairwise_singleton _ _)⟩

namespace Lemmas

theorem find_pair_of_mem (sub : List (Nat × Nat)) (hnd : (sub.map Prod.fst).Nodup)
    (e : Nat × Nat) (he : e ∈ sub) :
    sub.find? (fun x => x.1 == e.1) = some e := by
  induction sub with
  | nil => cases he
  | cons a t ih =>
      rcases List.mem_cons.mp he with rfl | het
      · exact List.find?_cons_of_pos t (by simp)
      · have hnd2 : (a.1 :: t.map Prod.fst).Nodup := by simpa using hnd
        have hne : a.1 ≠ e.1 := by
          intro hae
          exact (List.nodup_cons.mp hnd2).1
            (hae ▸ List.mem_map.mpr ⟨e, het, rfl⟩)
        rw [List.find?_cons_of_neg t (by simpa using hne)]
        exact ih (List.nodup_cons.mp hnd2).2 het

theorem applyOrder1_id (sub : List (Nat × Nat)) (im : BlogPostImage) :
    (applyOrder1 sub im).id = im.id := by
  unfold applyOrder1
  cases sub.find? (fun e => e.1 == im.id) <;> rfl

theorem applyOrder1_order (sub : List (Nat × Nat)) (hnd : (sub.map Prod.fst).Nodup)
    (im : BlogPostImage) (e : Nat × Nat) (he : e ∈ sub) (hid : e.1 = im.id) :
    (applyOrder1 sub im).order = e.2 := by
  unfold applyOrder1
  have hfind : sub.find? (fun x => x.1 == im.id) = some e := by
    have h := find_pair_of_mem sub hnd e he
    simpa [hid] using h
  rw [hfind]

theorem applyOrders_ids (imgs : List BlogPostImage) (sub : List (Nat × Nat)) :
    (applyOrders imgs sub).map (fun im => im.id) = imgs.map (fun im => im.id) := by
  unfold applyOrders
  rw [List.map_map]
  exact List.map_congr_left (fun im _ => applyOrder1_id sub im)

theorem applyOrders_orders_nodup (imgs : List BlogPostImage) (sub : List (Nat × Nat))
    (hids : (imgs.map (fun im => im.id)).Nodup)
    (hsubnd : (sub.map Prod.fst).Nodup)
    (hvals : (sub.map Prod.snd).Nodup)
    (hcover : ∀ im ∈ imgs, ∃ e ∈ sub, e.1 = im.id) :
    ((applyOrders imgs sub).map (fun im => im.order)).Nodup := by
  unfold applyOrders
  rw [List.map_map, List.Nodup, List.pairwise_map]
  have hpw : List.Pairwise (fun a b : BlogPostImage => a.id ≠ b.id) imgs := by
    rw [List.Nodup, List.pairwise_map] at hids
    exact hids
  refine hpw.imp_of_mem ?_
  intro a b ha hb hne
  obtain ⟨ea, hea, hida⟩ := hcover a ha
  obtain ⟨eb, heb, hidb⟩ := hcover b hb
  rw [Function.comp_apply, Function.comp_apply,
    applyOrder1_order sub hsubnd a ea hea hida,
    applyOrder1_order sub hsubnd b eb heb hidb]
  intro hval
  have heq : ea = eb :=
    List.inj_on_of_nodup_map hvals hea heb hval
  exact hne (by rw [← hida, ← hidb, heq])

theorem sorted_lt_of_orders_nodup (l : List BlogPostImage)
    (hnd : (l.map (fun im => im.order)).Nodup) :
    List.Sorted (fun a b : BlogPostImage => a.order < b.order) (sortImagesByOrder l) := by
  have hs := sortImages_sorted l
  have hperm : (sortImagesByOrder l).Perm l := sortImages_perm l
  have hnd2 : ((sortImagesByOrder l).map (fun im => im.order)).Nodup :=
    ((hperm.map (fun im => im.order)).nodup_iff).mpr hnd
  rw [List.Nodup, List.pairwise_map] at hnd2
  exact (hs.and hnd2).imp (fun hab => lt_of_le_of_ne hab.1 hab.2)

end Lemmas

/-- C5: persisting a submitted assignment of pairwise-distinct order
values over a post's images (whose ids are distinct and all covered by the
submission) (a) changes no image ids, (b) stores on each image exactly the
order value submitted for its id, and (c) every subsequent listing — the
rows sorted by `Meta.ordering = ['order']` — returns exactly those rows in
strictly ascending submitted order, i.e. in the submitted order. -/
theorem reorder_persists_submitted_order
    (imgs : List BlogPostImage) (sub : List (Nat × Nat))
    (hids : (imgs.map (fun im => im.id)).Nodup)
    (hperm : (sub.map Prod.fst).Perm (imgs.map (fun im => im.id)))
    (hvals : (sub.map Prod.snd).Nodup) :
    ((applyOrders imgs sub).map (fun im => im.id) = imgs.map (fun im => im.id)) ∧
    (∀ e ∈ sub, ∀ im ∈ applyOrders imgs sub, im.id = e.1 → im.order = e.2) ∧
    (sortImagesByOrder (applyOrders imgs sub)).Perm (applyOrders imgs sub) ∧
    List.Sorted (fun a b : BlogPostImage => a.order < b.order)
      (sortImagesByOrder (applyOrders imgs sub)) := by
  have hsubnd : (sub.map Prod.fst).Nodup := hperm.nodup_iff.mpr hids
  have hcover : ∀ im ∈ imgs, ∃ e ∈ sub, e.1 = im.id := by
    intro im him
    have hmem : im.id ∈ sub.map Prod.fst :=
      hperm.mem_iff.mpr (List.mem_map.mpr ⟨im, him, rfl⟩)
    obtain ⟨e, he, heq⟩ := List.mem_map.mp hmem
    exact ⟨e, he, heq⟩
  refine ⟨Lemmas.applyOrders_ids imgs sub, ?_, Lemmas.sortImages_perm _, ?_⟩
  · intro e he im him hid
    obtain ⟨img, himg, rfl⟩ := List.mem_map.mp him
    have hid2 : e.1 = img.id := by
      rw [← hid, Lemmas.applyOrder1_id]
    exact Lemmas.applyOrder1_order sub hsubnd img e he hid2
  · exact Lemmas.sorted_lt_of_orders_nodup _
      (Lemmas.applyOrders_orders_nodup imgs sub hids hsubnd hvals hcover)

/-- Witness for C5 at two concrete images and a swapping submission:
image 10 receives order 1 and image 11 order 0; the listing presents
exactly those two rows in strictly ascending persisted order. -/
theorem reorder_persists_submitted_order_witness :
    ((applyOrders [img10, img11] [(10, 1), (11, 0)]).map (fun im => im.id)
        = [img10, img11].map (fun im => im.id)) ∧
    (∀ e ∈ [(10, 1), (11, 0)],
      ∀ im ∈ applyOrders [img10, img11] [(10, 1), (11, 0)],
        im.id = e.1 → im.order = e.2) ∧
    (sortImagesByOrder (applyOrders [img10, img11] [(10, 1), (11, 0)])).Perm
      (applyOrders [img10, img11] [(10, 1), (11, 0)]) ∧
    List.Sorted (fun a b : BlogPostImage => a.order < b.order)
      (sortImagesByOrder (applyOrders [img10, img11] [(10, 1), (11, 0)])) :=
  reorder_persists_submitted_order [img10, img11] [(10, 1), (11, 0)]
    (by decide) (by decide) (by decide)

end Blog
